import Mathlib

/-!
Shallow embedding of the watchdog-rs controller state store
(`src/server/storage.rs`), the heartbeat PUT handler
(`src/server/controller.rs`), the relay's Kuma update
(`src/relay/api.rs`, `src/relay/service.rs`) and the Spryng alert medium
(`src/server/alert/spryng.rs`).

Modelling conventions:
- `chrono::DateTime<Utc>` timestamps are modelled as `Nat`; every operation
  that calls `Utc::now()` takes the current instant as an explicit `now`
  argument.
- `HashMap<String, V>` is modelled as `String → Option V`, with `mapInsert`
  playing the role of `HashMap::insert`.
- `f32` metric payloads are never computed on (only stored and copied), so
  they are carried opaquely as `Int`; the relay's already-formatted ping
  value is carried as a `String`.
- the `u32` counter `last_incident_id` and the incident ids are modelled as
  `Nat` reduced `% 2 ^ 32` at each increment, matching the wrapping
  arithmetic of release-build `u32` addition.
- Fallible `&mut self` methods return `Option String × MemoryStorage`: the
  first component is the error (if any) and the second the store as left by
  the call, including mutations performed before a failure was detected.
-/

inductive RegionState where
  | Initial
  | Up
  | Warn
  | Down
deriving DecidableEq, Repr

inductive GroupState where
  | Initial
  | Up
  | Warn
  | Down
  | Incident
deriving DecidableEq, Repr

structure RegionStatus where
  status : RegionState
  updated_at : Nat
deriving DecidableEq, Repr

structure RegionMetadata where
  linked_groups : List String
deriving DecidableEq, Repr

structure GroupMetrics where
  name : String
  labels : List (String × String)
  metric : Int
deriving DecidableEq, Repr

structure GroupStatus where
  status : GroupState
  updated_at : Nat
  last_metrics : List GroupMetrics
  last_error : Option String
deriving DecidableEq, Repr

structure IncidentRecord where
  id : Nat
  message : String
  timestamp : Nat
  error_message : Option String
  error_details : Option String
deriving DecidableEq, Repr

structure MemoryStorage where
  region_storage : String → Option RegionStatus
  region_metadata : String → Option RegionMetadata
  group_storage : String → Option GroupStatus
  incidents : List IncidentRecord
  last_incident_id : Nat

/-- `HashMap::insert`: the map updated at key `k` with value `v`. -/
def mapInsert {β : Type} (k : String) (v : β) (m : String → Option β) : String → Option β :=
  fun q => if q = k then some v else m q

/-- `MemoryStorage::new`: empty maps, no incidents, `last_incident_id = 0`. -/
def MemoryStorage.new : MemoryStorage :=
  { region_storage := fun _ => none
    region_metadata := fun _ => none
    group_storage := fun _ => none
    incidents := []
    last_incident_id := 0 }

/-- The composite group key `format!("{}.{}", region, group)`. -/
def group_key (region group : String) : String :=
  region ++ "." ++ group

/-- `MemoryStorage::init_region`. -/
def MemoryStorage.init_region (s : MemoryStorage) (now : Nat) (region : String)
    (linked_groups : List String) : MemoryStorage :=
  { s with
    region_storage := mapInsert region { status := RegionState.Initial, updated_at := now } s.region_storage
    region_metadata := mapInsert region { linked_groups := linked_groups } s.region_metadata }

/-- `MemoryStorage::init_group`. -/
def MemoryStorage.init_group (s : MemoryStorage) (now : Nat) (region group : String) : MemoryStorage :=
  { s with
    group_storage := mapInsert (group_key region group)
      { status := GroupState.Initial, updated_at := now, last_metrics := [], last_error := none }
      s.group_storage }

/-- `MemoryStorage::get_region_status`. -/
def MemoryStorage.get_region_status (s : MemoryStorage) (region : String) : Option RegionStatus :=
  s.region_storage region

/-- `MemoryStorage::get_group_status`. -/
def MemoryStorage.get_group_status (s : MemoryStorage) (region group : String) : Option GroupStatus :=
  s.group_storage (group_key region group)

/-- `MemoryStorage::refresh_region`: unconditional insert, `Warn` on
`has_warnings` else `Up`, timestamp `now`. -/
def MemoryStorage.refresh_region (s : MemoryStorage) (now : Nat) (region : String)
    (has_warnings : Bool) : MemoryStorage :=
  { s with
    region_storage := mapInsert region
      { status := match has_warnings with
          | true => RegionState.Warn
          | false => RegionState.Up
        updated_at := now }
      s.region_storage }

/-- `MemoryStorage::trigger_region_incident`: region goes `Down` keeping its
old `updated_at`; each linked group is overwritten with a fresh `Incident`
status; one incident record is appended and the id counter bumped. -/
def MemoryStorage.trigger_region_incident (s : MemoryStorage) (now : Nat) (region : String)
    (ms_threshold : Int) : Option String × MemoryStorage :=
  match s.region_storage region with
  | none => (some ("Could not find region storage " ++ region), s)
  | some old_status =>
    let updated_at := old_status.updated_at
    let s1 : MemoryStorage :=
      { s with region_storage := mapInsert region { status := RegionState.Down, updated_at := updated_at } s.region_storage }
    match s1.region_metadata region with
    | none => (some ("Could not find region metadata " ++ region), s1)
    | some region_metadata =>
      let cascade := fun (gs : String → Option GroupStatus) (impacted_group : String) =>
        mapInsert (group_key region impacted_group)
          { status := GroupState.Incident, updated_at := now, last_metrics := [], last_error := none } gs
      let s2 : MemoryStorage :=
        { s1 with group_storage := region_metadata.linked_groups.foldl cascade s1.group_storage }
      let record : IncidentRecord :=
        { id := s2.last_incident_id
          message := "Region " ++ region ++ " is DOWN"
          timestamp := now
          error_message := some ("Region relay has not sent heartbeat in time (" ++ toString ms_threshold ++ "ms threshold exceeded)")
          error_details := none }
      let s3 : MemoryStorage :=
        { s2 with incidents := s2.incidents ++ [record]
                  last_incident_id := (s2.last_incident_id + 1) % 2 ^ 32 }
      (none, s3)

/-- `MemoryStorage::refresh_group`: a `Down` refresh keeps the old
`updated_at` (and fails when the key is missing); any other status stamps
`now`. The stored metrics and error are replaced in all cases. -/
def MemoryStorage.refresh_group (s : MemoryStorage) (now : Nat) (region group : String)
    (status : GroupState) (last_metrics : List GroupMetrics) (last_error : Option String) :
    Option String × MemoryStorage :=
  let gkey := group_key region group
  match status, s.group_storage gkey with
  | GroupState.Down, none => (some ("Could not find group storage " ++ gkey), s)
  | GroupState.Down, some old_status =>
    let entry : GroupStatus :=
      { status := GroupState.Down, updated_at := old_status.updated_at
        last_metrics := last_metrics, last_error := last_error }
    (none, { s with group_storage := mapInsert gkey entry s.group_storage })
  | _, _ =>
    let entry : GroupStatus :=
      { status := status, updated_at := now
        last_metrics := last_metrics, last_error := last_error }
    (none, { s with group_storage := mapInsert gkey entry s.group_storage })

/-- `MemoryStorage::trigger_group_incident`: move the group to `Incident`
keeping its `updated_at`, metrics and error; append an incident referencing
the last error and bump the id counter. -/
def MemoryStorage.trigger_group_incident (s : MemoryStorage) (now : Nat) (region group : String) :
    Option String × MemoryStorage :=
  let gkey := group_key region group
  match s.group_storage gkey with
  | none => (some ("Could not find group storage " ++ gkey), s)
  | some old_status =>
    let entry : GroupStatus :=
      { status := GroupState.Incident, updated_at := old_status.updated_at
        last_metrics := old_status.last_metrics, last_error := old_status.last_error }
    let s1 : MemoryStorage :=
      { s with group_storage := mapInsert gkey entry s.group_storage }
    let error_message := "Triggered from group relay (" ++ old_status.last_error.getD "-" ++ ")"
    let record : IncidentRecord :=
      { id := s1.last_incident_id
        message := "Group " ++ region ++ "." ++ group ++ " is DOWN"
        timestamp := now
        error_message := some error_message
        error_details := none }
    let s2 : MemoryStorage :=
      { s1 with incidents := s1.incidents ++ [record]
                last_incident_id := (s1.last_incident_id + 1) % 2 ^ 32 }
    (none, s2)

/-! ## Heartbeat wire model and PUT handler (`src/relay/model.rs`, `src/server/controller.rs`) -/

structure MetricInput where
  name : String
  labels : List (String × String)
  metric : Int
deriving DecidableEq, Repr

structure GroupResultInput where
  name : String
  working : Bool
  has_warnings : Bool
  error_message : Option String
  error_detail : Option String
  metrics : List MetricInput
deriving DecidableEq, Repr

/-- The `match (group.working, group.has_warnings)` arm of the PUT handler. -/
def derive_group_state : Bool → Bool → GroupState
  | true, false => GroupState.Up
  | true, true => GroupState.Warn
  | false, _ => GroupState.Down

/-- One iteration of the PUT handler's `for group in results` loop. The
accumulator carries the region-level `has_warning` flag and the store. The
heartbeat's `error_message` is forwarded as the group's `last_error`
(the final argument of `refresh_group`). -/
def region_update_step (now : Nat) (region_name : String)
    (acc : Bool × MemoryStorage) (group : GroupResultInput) : Bool × MemoryStorage :=
  let has_warning := acc.1 || (!group.working || group.has_warnings)
  let st := acc.2
  let group_state := derive_group_state group.working group.has_warnings
  let current_state := (st.get_group_status region_name group.name).map (fun x => x.status)
  if group.working = false ∧ current_state = some GroupState.Incident then
    (has_warning, st)
  else
    let metrics := group.metrics.map
      (fun m => ({ name := m.name, labels := m.labels, metric := m.metric } : GroupMetrics))
    (has_warning, (st.refresh_group now region_name group.name group_state metrics group.error_message).2)

/-- The PUT handler's loop over the heartbeat body, starting from
`has_warning = false`. -/
def handle_region_update_loop (s : MemoryStorage) (now : Nat) (region_name : String)
    (results : List GroupResultInput) : Bool × MemoryStorage :=
  results.foldl (region_update_step now region_name) (false, s)

/-- `handle_region_update`: run the loop, then `refresh_region` with the
aggregated `has_warning` flag. -/
def handle_region_update (s : MemoryStorage) (now : Nat) (region_name : String)
    (results : List GroupResultInput) : MemoryStorage :=
  let r := handle_region_update_loop s now region_name results
  r.2.refresh_region now region_name r.1

/-! ## Incident-triggering call sequences (for the id-sequence invariant) -/

/-- A call to one of the two incident-appending store operations. -/
inductive IncidentOp where
  | regionIncident (now : Nat) (region : String) (ms_threshold : Int)
  | groupIncident (now : Nat) (region : String) (group : String)

/-- Apply one incident-triggering call, keeping the store the call leaves
behind (the Rust methods mutate `&mut self` even when they return `Err`). -/
def applyIncidentOp (s : MemoryStorage) : IncidentOp → MemoryStorage
  | IncidentOp.regionIncident now region thr => (s.trigger_region_incident now region thr).2
  | IncidentOp.groupIncident now region group => (s.trigger_group_incident now region group).2

/-- Apply a sequence of incident-triggering calls in order. -/
def applyIncidentOps (ops : List IncidentOp) (s : MemoryStorage) : MemoryStorage :=
  ops.foldl applyIncidentOp s

/-! ## Relay side: Kuma update (`src/relay/api.rs`, `src/relay/service.rs`) -/

/-- The relay's unstable-group count: groups with `has_warnings || !working`
(`src/relay/service.rs`). -/
def unstable_group_count (group_results : List GroupResultInput) : Nat :=
  (group_results.filter (fun x => x.has_warnings || !x.working)).length

/-- The `msg` value built by `trigger_kuma_update` (`src/relay/api.rs`). -/
def kuma_message (total_groups unstable_groups : Nat) : String :=
  if total_groups = unstable_groups then
    "OK " ++ toString total_groups ++ " healthy"
  else
    "WARN " ++ toString unstable_groups ++ " unstable"

/-- The full URL requested by `trigger_kuma_update`: base, `status=up`, the
message, and `&ping=<ms>` exactly when a last ping value exists (the `f32`
ping is carried as its formatted string). -/
def trigger_kuma_url (kuma_url : String) (total_groups unstable_groups : Nat)
    (last_ping : Option String) : String :=
  let base := kuma_url ++ "?status=up&msg=" ++ kuma_message total_groups unstable_groups
  match last_ping with
  | some ping => base ++ "&ping=" ++ ping
  | none => base

/-! ## Spryng alert medium (`src/server/alert/spryng.rs`) -/

structure SpryngAlerter where
  id : String
  token : String
  default_encoding : String
  default_originator : String
  default_route : String
  recipients : List String
deriving DecidableEq, Repr

/-- `SpryngAlerter::new`. -/
def SpryngAlerter.new (id token : String) (recipients : List String) : SpryngAlerter :=
  { id := id, token := token, default_encoding := "auto", default_originator := "watchdog"
    default_route := "business", recipients := recipients }

/-- The JSON body of the Spryng request. -/
structure SpryngBody where
  body : String
  encoding : String
  originator : String
  recipients : List String
  route : String
deriving DecidableEq, Repr

/-- An unsent HTTP request as assembled by a medium's `build_request`. -/
structure SpryngRequest where
  method : String
  url : String
  headers : List (String × String)
  body : SpryngBody
deriving DecidableEq, Repr

/-- `SpryngAlerter::build_request` as written in the source: note the URL
string literal ends with a stray apostrophe character (`\x27`). -/
def SpryngAlerter.build_request (a : SpryngAlerter) (message : String) : SpryngRequest :=
  { method := "POST"
    url := "https://rest.spryngsms.com/v1/messages\x27"
    headers := [("Accept", "application/json"),
                ("Authorization", "Bearer " ++ a.token),
                ("Content-Type", "application/json")]
    body := { body := message, encoding := a.default_encoding, originator := a.default_originator
              recipients := a.recipients, route := a.default_route } }

/-! ## Helper lemmas -/

theorem mapInsert_self {β : Type} (k : String) (v : β) (m : String → Option β) :
    mapInsert k v m k = some v := by
  simp [mapInsert]

theorem mapInsert_ne {β : Type} {q k : String} (h : q ≠ k) (v : β) (m : String → Option β) :
    mapInsert k v m q = m q := by
  simp [mapInsert, h]

theorem string_append_left_cancel {p a b : String} (h : p ++ a = p ++ b) : a = b := by
  have h2 := congrArg String.data h
  rw [String.data_append, String.data_append] at h2
  exact String.ext (List.append_cancel_left h2)

theorem group_key_right_inj {r a b : String} (h : group_key r a = group_key r b) : a = b :=
  string_append_left_cancel (p := r ++ ".") h

/-- `refresh_group` touches the group map only at its own composite key. -/
theorem refresh_group_other_key (s : MemoryStorage) (now : Nat) (region group : String)
    (status : GroupState) (metrics : List GroupMetrics) (err : Option String)
    {q : String} (hq : q ≠ group_key region group) :
    ((s.refresh_group now region group status metrics err).2).group_storage q
      = s.group_storage q := by
  cases status <;> rcases hx : s.group_storage (group_key region group) with _ | old <;>
    simp [MemoryStorage.refresh_group, hx, mapInsert_ne hq]

theorem region_update_step_fst (now : Nat) (region_name : String)
    (acc : Bool × MemoryStorage) (g : GroupResultInput) :
    (region_update_step now region_name acc g).1 = (acc.1 || (!g.working || g.has_warnings)) := by
  simp only [region_update_step]
  split <;> rfl

theorem handle_loop_fst_general (now : Nat) (region_name : String) :
    ∀ (results : List GroupResultInput) (b : Bool) (st : MemoryStorage),
      (results.foldl (region_update_step now region_name) (b, st)).1
        = (b || results.any (fun e => !e.working || e.has_warnings)) := by
  intro results
  induction results with
  | nil => intro b st; simp
  | cons e rest ih =>
    intro b st
    rw [List.foldl_cons]
    rcases hstep : region_update_step now region_name (b, st) e with ⟨b2, st2⟩
    have hb2 : b2 = (b || (!e.working || e.has_warnings)) := by
      have := region_update_step_fst now region_name (b, st) e
      rw [hstep] at this
      exact this
    rw [ih b2 st2, hb2, List.any_cons, Bool.or_assoc]

/-- The PUT handler leaves the region entry `Warn`/`Up` according to the
aggregated warning flag, stamped with `now`. -/
theorem handle_region_update_region_lookup (s : MemoryStorage) (now : Nat) (region_name : String)
    (results : List GroupResultInput) :
    (handle_region_update s now region_name results).get_region_status region_name
      = some { status := if results.any (fun e => !e.working || e.has_warnings) then RegionState.Warn else RegionState.Up
               updated_at := now } := by
  unfold handle_region_update handle_region_update_loop
  rcases hloop : List.foldl (region_update_step now region_name) (false, s) results with ⟨b, st⟩
  have hb : b = results.any (fun e => !e.working || e.has_warnings) := by
    have := handle_loop_fst_general now region_name results false s
    rw [hloop] at this
    simpa using this
  cases hany : results.any (fun e => !e.working || e.has_warnings) <;>
    simp [MemoryStorage.refresh_region, MemoryStorage.get_region_status, hb, hany, mapInsert_self]

/-! ## Claim theorems -/

/-- C4: for an initialized group key, `refresh_group` with `Down` keeps the
previous `updated_at` while any other status stamps the current time
(strictly later than before, given a strictly advancing clock); metrics and
error are replaced and the stored status becomes the argument, with no
error returned. -/
theorem refresh_group_timestamp_spec (s : MemoryStorage) (now : Nat) (region group : String)
    (old : GroupStatus) (h : s.get_group_status region group = some old)
    (hnow : old.updated_at < now) :
    ∀ (status : GroupState) (metrics : List GroupMetrics) (err : Option String),
      (s.refresh_group now region group status metrics err).1 = none ∧
      (s.refresh_group now region group status metrics err).2.get_group_status region group
        = some { status := status
                 updated_at := if status = GroupState.Down then old.updated_at else now
                 last_metrics := metrics
                 last_error := err } ∧
      ((status = GroupState.Up ∨ status = GroupState.Warn) →
        old.updated_at < (if status = GroupState.Down then old.updated_at else now)) := by
  intro status metrics err
  have h2 : s.group_storage (group_key region group) = some old := h
  refine ⟨?_, ?_, ?_⟩
  · cases status <;> simp [MemoryStorage.refresh_group, h2]
  · cases status <;>
      simp [MemoryStorage.refresh_group, MemoryStorage.get_group_status, h2, mapInsert_self]
  · intro hc
    cases status with
    | Down => rcases hc with hc | hc <;> exact absurd hc (by decide)
    | _ => simpa using hnow

/-- C4 witness: on a freshly initialized group (timestamp `0`), an `Up`
refresh at time `5` succeeds and stores timestamp `5 > 0`. -/
theorem refresh_group_timestamp_spec_witness :
    ((((MemoryStorage.new.init_group 0 "r" "g")).refresh_group 5 "r" "g" GroupState.Up
        [] (some "e")).1 = none) ∧
    ((((MemoryStorage.new.init_group 0 "r" "g")).refresh_group 5 "r" "g" GroupState.Up
        [] (some "e")).2.get_group_status "r" "g"
      = some { status := GroupState.Up, updated_at := 5, last_metrics := [], last_error := some "e" }) ∧
    (0 : Nat) < 5 := by
  have h := refresh_group_timestamp_spec (MemoryStorage.new.init_group 0 "r" "g") 5 "r" "g"
    { status := GroupState.Initial, updated_at := 0, last_metrics := [], last_error := none }
    (by simp [MemoryStorage.new, MemoryStorage.init_group, MemoryStorage.get_group_status, mapInsert_self])
    (by decide) GroupState.Up [] (some "e")
  exact ⟨h.1, h.2.1, h.2.2 (Or.inl rfl)⟩

/-- C6: the PUT handler maps `(working, has_warnings)` to `Up`/`Warn`/`Down`
as specified, aggregates `has_warning` as "some group has `!working` or
`has_warnings`", and the final `refresh_region` stores `Warn` when the flag
holds and `Up` otherwise — never `Down` — stamped with the current time. -/
theorem heartbeat_state_mapping (s : MemoryStorage) (now : Nat) (region_name : String)
    (results : List GroupResultInput) :
    derive_group_state true false = GroupState.Up ∧
    derive_group_state true true = GroupState.Warn ∧
    (∀ w : Bool, derive_group_state false w = GroupState.Down) ∧
    (handle_region_update_loop s now region_name results).1
      = results.any (fun e => !e.working || e.has_warnings) ∧
    (handle_region_update s now region_name results).get_region_status region_name
      = some { status := if results.any (fun e => !e.working || e.has_warnings) then RegionState.Warn else RegionState.Up
               updated_at := now } ∧
    (∀ w : Bool, (if w then RegionState.Warn else RegionState.Up) ≠ RegionState.Down) := by
  refine ⟨rfl, rfl, fun w => by cases w <;> rfl, ?_, ?_, fun w => by cases w <;> decide⟩
  · have := handle_loop_fst_general now region_name results false s
    simpa [handle_region_update_loop] using this
  · exact handle_region_update_region_lookup s now region_name results

/-- C10: `refresh_region` is total — for any region name, initialized or
not, it stores a fresh `Up`/`Warn` entry stamped `now`; hence a heartbeat
PUT for an undeclared region creates region state instead of being
rejected. -/
theorem refresh_region_never_fails (s : MemoryStorage) (now : Nat) (region : String) (w : Bool)
    (results : List GroupResultInput) :
    (s.refresh_region now region w).get_region_status region
      = some { status := if w then RegionState.Warn else RegionState.Up, updated_at := now } ∧
    (handle_region_update s now region results).get_region_status region ≠ none := by
  constructor
  · cases w <;> simp [MemoryStorage.refresh_region, MemoryStorage.get_region_status, mapInsert_self]
  · rw [handle_region_update_region_lookup]
    simp

/-- The PUT handler's loop never changes the stored state of a group that
is in `Incident` as long as every heartbeat entry bearing that group's name
reports `working = false`. -/
theorem loop_preserves_incident (now : Nat) (region gname : String) (gs : GroupStatus)
    (hInc : gs.status = GroupState.Incident) :
    ∀ (results : List GroupResultInput) (b : Bool) (st : MemoryStorage),
      st.get_group_status region gname = some gs →
      (∀ e ∈ results, e.name = gname → e.working = false) →
      ((results.foldl (region_update_step now region) (b, st)).2).get_group_status region gname
        = some gs := by
  intro results
  induction results with
  | nil => intro b st h _; simpa using h
  | cons e rest ih =>
    intro b st h hall
    rw [List.foldl_cons]
    rcases hstep : region_update_step now region (b, st) e with ⟨b2, st2⟩
    have hpres : st2.get_group_status region gname = some gs := by
      have hsnd : st2 = (region_update_step now region (b, st) e).2 := by rw [hstep]
      rw [hsnd]
      simp only [region_update_step]
      split
      · exact h
      · rename_i hcond
        by_cases hname : e.name = gname
        · exact absurd ⟨hall e (List.mem_cons_self e rest) hname, by rw [hname, h]; simp [hInc]⟩ hcond
        · have hq : group_key region gname ≠ group_key region e.name :=
            fun hk => hname (group_key_right_inj hk).symm
          have hother := refresh_group_other_key st now region e.name
            (derive_group_state e.working e.has_warnings)
            (e.metrics.map (fun m => ({ name := m.name, labels := m.labels, metric := m.metric } : GroupMetrics)))
            e.error_message hq
          exact hother.trans h
    exact ih b2 st2 hpres (fun x hx hn => hall x (List.mem_cons_of_mem e hx) hn)

/-- C1: a group whose stored status is `Incident` is sticky — processing a
heartbeat whose entries for this group all report `working = false` leaves
its stored status, `updated_at`, `last_metrics` and `last_error` exactly as
they were after the PUT handler's loop. -/
theorem incident_sticky_heartbeat (s : MemoryStorage) (now : Nat) (region gname : String)
    (gs : GroupStatus) (results : List GroupResultInput)
    (h : s.get_group_status region gname = some gs)
    (hInc : gs.status = GroupState.Incident)
    (hres : ∀ e ∈ results, e.name = gname → e.working = false) :
    ((handle_region_update_loop s now region results).2).get_group_status region gname
      = some gs :=
  loop_preserves_incident now region gname gs hInc results false s h hres

/-- C1 witness: a concrete store with group `r.g` in `Incident` (stamped 1)
stays untouched by a heartbeat reporting `working = false` for `g`. -/
theorem incident_sticky_heartbeat_witness :
    ((handle_region_update_loop
        (((MemoryStorage.new.init_group 0 "r" "g").refresh_group 1 "r" "g"
            GroupState.Incident [] (some "boom")).2)
        2 "r"
        [{ name := "g", working := false, has_warnings := true, error_message := some "still down"
           error_detail := none, metrics := [] }]).2).get_group_status "r" "g"
      = some { status := GroupState.Incident, updated_at := 1, last_metrics := []
               last_error := some "boom" } :=
  incident_sticky_heartbeat
    (((MemoryStorage.new.init_group 0 "r" "g").refresh_group 1 "r" "g"
        GroupState.Incident [] (some "boom")).2)
    2 "r" "g"
    { status := GroupState.Incident, updated_at := 1, last_metrics := [], last_error := some "boom" }
    [{ name := "g", working := false, has_warnings := true, error_message := some "still down"
       error_detail := none, metrics := [] }]
    (by decide) rfl (by decide)

/-- `trigger_region_incident` preserves the wrapped id/range invariant on
the incident log. -/
theorem trigger_region_incident_ids (s : MemoryStorage) (now : Nat) (region : String) (thr : Int)
    (h1 : s.incidents.map (fun i => i.id)
      = (List.range s.incidents.length).map (fun k => k % 2 ^ 32))
    (h2 : s.last_incident_id = s.incidents.length % 2 ^ 32) :
    (((s.trigger_region_incident now region thr).2).incidents.map (fun i => i.id)
        = (List.range ((s.trigger_region_incident now region thr).2).incidents.length).map
            (fun k => k % 2 ^ 32)) ∧
    ((s.trigger_region_incident now region thr).2).last_incident_id
        = ((s.trigger_region_incident now region thr).2).incidents.length % 2 ^ 32 := by
  have hpow : (2 : Nat) ^ 32 = 4294967296 := by norm_num
  rcases hr : s.region_storage region with _ | old
  · simp [MemoryStorage.trigger_region_incident, hr, h1, h2]
  · rcases hm : s.region_metadata region with _ | md
    · simp [MemoryStorage.trigger_region_incident, hr, hm, h1, h2]
    · simp [MemoryStorage.trigger_region_incident, hr, hm, h1, h2, List.range_succ, hpow]

/-- `trigger_group_incident` preserves the wrapped id/range invariant on
the incident log. -/
theorem trigger_group_incident_ids (s : MemoryStorage) (now : Nat) (region group : String)
    (h1 : s.incidents.map (fun i => i.id)
      = (List.range s.incidents.length).map (fun k => k % 2 ^ 32))
    (h2 : s.last_incident_id = s.incidents.length % 2 ^ 32) :
    (((s.trigger_group_incident now region group).2).incidents.map (fun i => i.id)
        = (List.range ((s.trigger_group_incident now region group).2).incidents.length).map
            (fun k => k % 2 ^ 32)) ∧
    ((s.trigger_group_incident now region group).2).last_incident_id
        = ((s.trigger_group_incident now region group).2).incidents.length % 2 ^ 32 := by
  have hpow : (2 : Nat) ^ 32 = 4294967296 := by norm_num
  rcases hg : s.group_storage (group_key region group) with _ | old
  · simp [MemoryStorage.trigger_group_incident, hg, h1, h2]
  · simp [MemoryStorage.trigger_group_incident, hg, h1, h2, List.range_succ, hpow]

/-- Any sequence of incident-triggering calls preserves the wrapped
id/range invariant. -/
theorem applyIncidentOps_ids_inv (ops : List IncidentOp) :
    ∀ (s : MemoryStorage),
      s.incidents.map (fun i => i.id)
        = (List.range s.incidents.length).map (fun k => k % 2 ^ 32) →
      s.last_incident_id = s.incidents.length % 2 ^ 32 →
      ((applyIncidentOps ops s).incidents.map (fun i => i.id)
          = (List.range (applyIncidentOps ops s).incidents.length).map (fun k => k % 2 ^ 32)) ∧
      (applyIncidentOps ops s).last_incident_id
          = (applyIncidentOps ops s).incidents.length % 2 ^ 32 := by
  induction ops with
  | nil => intro s h1 h2; exact ⟨h1, h2⟩
  | cons op rest ih =>
    intro s h1 h2
    show (((op :: rest).foldl applyIncidentOp s).incidents.map (fun i => i.id) = _) ∧ _
    rw [List.foldl_cons]
    cases op with
    | regionIncident now region thr =>
      have hstep := trigger_region_incident_ids s now region thr h1 h2
      exact ih _ hstep.1 hstep.2
    | groupIncident now region group =>
      have hstep := trigger_group_incident_ids s now region group h1 h2
      exact ih _ hstep.1 hstep.2

/-- When the target group key is present, each `groupIncident` call appends
one incident and keeps the key present, so `n` such calls append `n`
incidents. -/
theorem applyIncidentOps_replicate_group_length :
    ∀ (n : Nat) (s : MemoryStorage),
      (s.group_storage (group_key "r" "g")).isSome = true →
      (applyIncidentOps (List.replicate n (IncidentOp.groupIncident 0 "r" "g")) s).incidents.length
        = s.incidents.length + n := by
  intro n
  induction n with
  | zero => intro s _; simp [applyIncidentOps]
  | succ k ih =>
    intro s hs
    rw [List.replicate_succ]
    rw [show applyIncidentOps
          (IncidentOp.groupIncident 0 "r" "g" :: List.replicate k (IncidentOp.groupIncident 0 "r" "g")) s
        = applyIncidentOps (List.replicate k (IncidentOp.groupIncident 0 "r" "g"))
            (applyIncidentOp s (IncidentOp.groupIncident 0 "r" "g")) from rfl]
    rcases hg : s.group_storage (group_key "r" "g") with _ | old
    · rw [hg] at hs; simp at hs
    · have hstep1 : (applyIncidentOp s (IncidentOp.groupIncident 0 "r" "g")).incidents.length
          = s.incidents.length + 1 := by
        simp [applyIncidentOp, MemoryStorage.trigger_group_incident, hg]
      have hstep2 : ((applyIncidentOp s (IncidentOp.groupIncident 0 "r" "g")).group_storage
          (group_key "r" "g")).isSome = true := by
        simp [applyIncidentOp, MemoryStorage.trigger_group_incident, hg, mapInsert_self]
      rw [ih _ hstep2, hstep1]
      omega

/-- The first `2 ^ 32 + 1` values of `k % 2 ^ 32` repeat `0`, so the list
is not duplicate-free. -/
theorem range_mod_not_nodup :
    ¬ List.Nodup ((List.range (2 ^ 32 + 1)).map (fun k => k % 2 ^ 32)) := by
  intro hnd
  have h0 : (0 : Nat) ∈ List.range (2 ^ 32 + 1) := by
    rw [List.mem_range]; exact Nat.succ_pos _
  have hM : (2 : Nat) ^ 32 ∈ List.range (2 ^ 32 + 1) := by
    rw [List.mem_range]; exact Nat.lt_succ_self _
  have h01 := List.inj_on_of_nodup_map hnd h0 hM (by simp [Nat.mod_self])
  exact absurd h01 (by norm_num)

/-- C3 counterexample: the `u32` incident-id counter wraps at `2 ^ 32`, so
after `2 ^ 32 + 1` successful `trigger_group_incident` calls (on a store
created by `MemoryStorage::new` whose target group was initialized at
startup) the id `0` is reused: the appended id list is neither
duplicate-free nor equal to `0, 1, …, len - 1`. -/
theorem incident_ids_wrap_counterexample :
    ¬ List.Nodup
        ((applyIncidentOps
            (List.replicate (2 ^ 32 + 1) (IncidentOp.groupIncident 0 "r" "g"))
            (MemoryStorage.new.init_group 0 "r" "g")).incidents.map (fun i => i.id)) ∧
    ¬ ((applyIncidentOps
            (List.replicate (2 ^ 32 + 1) (IncidentOp.groupIncident 0 "r" "g"))
            (MemoryStorage.new.init_group 0 "r" "g")).incidents.map (fun i => i.id)
        = List.range (applyIncidentOps
            (List.replicate (2 ^ 32 + 1) (IncidentOp.groupIncident 0 "r" "g"))
            (MemoryStorage.new.init_group 0 "r" "g")).incidents.length) := by
  have hsome : (((MemoryStorage.new.init_group 0 "r" "g")).group_storage
      (group_key "r" "g")).isSome = true := by
    simp [MemoryStorage.new, MemoryStorage.init_group, mapInsert_self]
  have hlen := applyIncidentOps_replicate_group_length (2 ^ 32 + 1)
    (MemoryStorage.new.init_group 0 "r" "g") hsome
  have hinv := applyIncidentOps_ids_inv
    (List.replicate (2 ^ 32 + 1) (IncidentOp.groupIncident 0 "r" "g"))
    (MemoryStorage.new.init_group 0 "r" "g")
    (by simp [MemoryStorage.new, MemoryStorage.init_group])
    (by simp [MemoryStorage.new, MemoryStorage.init_group])
  have hlen2 : (applyIncidentOps
      (List.replicate (2 ^ 32 + 1) (IncidentOp.groupIncident 0 "r" "g"))
      (MemoryStorage.new.init_group 0 "r" "g")).incidents.length = 2 ^ 32 + 1 := by
    rw [hlen]; simp [MemoryStorage.new, MemoryStorage.init_group]
  have hids := hinv.1
  rw [hlen2] at hids
  constructor
  · rw [hids]
    exact range_mod_not_nodup
  · intro heq
    apply range_mod_not_nodup
    rw [← hids, heq]
    exact List.nodup_range _

/-- C3 amended: for any sequence of `trigger_region_incident` /
`trigger_group_incident` calls on a store whose incident log satisfies the
wrapped-id invariant (as a store created by `MemoryStorage::new` does), the
i-th appended incident carries id `i % 2 ^ 32`; in particular, as long as
at most `2 ^ 32` incidents have been appended the ids are exactly
`0, 1, 2, …` — strictly increasing, consecutive, starting at `0`, never
reused. Beyond `2 ^ 32` appends the `u32` counter wraps and ids repeat. -/
theorem incident_ids_wrap (ops : List IncidentOp) (s : MemoryStorage)
    (h1 : s.incidents.map (fun i => i.id)
      = (List.range s.incidents.length).map (fun k => k % 2 ^ 32))
    (h2 : s.last_incident_id = s.incidents.length % 2 ^ 32) :
    ((applyIncidentOps ops s).incidents.map (fun i => i.id)
        = (List.range (applyIncidentOps ops s).incidents.length).map (fun k => k % 2 ^ 32)) ∧
    ((applyIncidentOps ops s).incidents.length ≤ 2 ^ 32 →
      (applyIncidentOps ops s).incidents.map (fun i => i.id)
        = List.range (applyIncidentOps ops s).incidents.length) := by
  have h := applyIncidentOps_ids_inv ops s h1 h2
  refine ⟨h.1, fun hle => ?_⟩
  rw [h.1]
  conv_rhs => rw [← List.map_id (List.range (applyIncidentOps ops s).incidents.length)]
  apply List.map_congr_left
  intro k hk
  have hklt := List.mem_range.mp hk
  exact Nat.mod_eq_of_lt (lt_of_lt_of_le hklt hle)

/-- C3 witness: two successful group-incident calls on a store created by
`MemoryStorage::new` and initialized for `r.g` yield the id list `[0, 1]` =
`List.range 2`. -/
theorem incident_ids_wrap_witness :
    ((applyIncidentOps
        [IncidentOp.groupIncident 1 "r" "g", IncidentOp.groupIncident 2 "r" "g"]
        (MemoryStorage.new.init_group 0 "r" "g")).incidents.map (fun i => i.id)
      = (List.range (applyIncidentOps
          [IncidentOp.groupIncident 1 "r" "g", IncidentOp.groupIncident 2 "r" "g"]
          (MemoryStorage.new.init_group 0 "r" "g")).incidents.length).map (fun k => k % 2 ^ 32)) ∧
    ((applyIncidentOps
        [IncidentOp.groupIncident 1 "r" "g", IncidentOp.groupIncident 2 "r" "g"]
        (MemoryStorage.new.init_group 0 "r" "g")).incidents.map (fun i => i.id)
      = List.range (applyIncidentOps
          [IncidentOp.groupIncident 1 "r" "g", IncidentOp.groupIncident 2 "r" "g"]
          (MemoryStorage.new.init_group 0 "r" "g")).incidents.length) := by
  have h := incident_ids_wrap
    [IncidentOp.groupIncident 1 "r" "g", IncidentOp.groupIncident 2 "r" "g"]
    (MemoryStorage.new.init_group 0 "r" "g")
    (by simp [MemoryStorage.new, MemoryStorage.init_group])
    (by simp [MemoryStorage.new, MemoryStorage.init_group])
  exact ⟨h.1, h.2 (by decide)⟩

/-- Looking up a key in the cascade fold of `trigger_region_incident`:
`some v` when the key is one of the inserted composite keys, the original
map otherwise. -/
theorem foldl_cascade_lookup (region : String) (v : GroupStatus) :
    ∀ (l : List String) (m : String → Option GroupStatus) (q : String),
      (l.foldl (fun gs g => mapInsert (group_key region g) v gs) m) q
        = if q ∈ l.map (group_key region) then some v else m q := by
  intro l
  induction l with
  | nil => intro m q; simp
  | cons g t ih =>
    intro m q
    rw [List.foldl_cons, ih]
    by_cases h1 : q ∈ t.map (group_key region) <;>
      by_cases h2 : q = group_key region g <;>
        simp [mapInsert, h1, h2]

/-- C5: with both the region status and its metadata present,
`trigger_region_incident` succeeds, sets the region `Down` keeping its
`updated_at`, overwrites every linked group with `Incident` stamped `now`
(metrics and error cleared), and appends exactly one incident with message
`"Region <name> is DOWN"` and an error message naming the exceeded
threshold; if the region status or the metadata entry is missing, the call
fails with an error. -/
theorem trigger_region_incident_spec (s : MemoryStorage) (now : Nat) (region : String) (thr : Int) :
    (∀ old md, s.region_storage region = some old → s.region_metadata region = some md →
      ((s.trigger_region_incident now region thr).1 = none ∧
       (s.trigger_region_incident now region thr).2.get_region_status region
         = some { status := RegionState.Down, updated_at := old.updated_at } ∧
       (∀ g ∈ md.linked_groups,
         (s.trigger_region_incident now region thr).2.get_group_status region g
           = some { status := GroupState.Incident, updated_at := now
                    last_metrics := [], last_error := none }) ∧
       (s.trigger_region_incident now region thr).2.incidents
         = s.incidents ++ [{ id := s.last_incident_id
                             message := "Region " ++ region ++ " is DOWN"
                             timestamp := now
                             error_message := some ("Region relay has not sent heartbeat in time ("
                               ++ toString thr ++ "ms threshold exceeded)")
                             error_details := none }])) ∧
    (s.region_storage region = none → (s.trigger_region_incident now region thr).1 ≠ none) ∧
    (s.region_metadata region = none → (s.trigger_region_incident now region thr).1 ≠ none) := by
  refine ⟨?_, ?_, ?_⟩
  · intro old md hr hm
    refine ⟨?_, ?_, ?_, ?_⟩
    · simp [MemoryStorage.trigger_region_incident, hr, hm]
    · simp [MemoryStorage.trigger_region_incident, MemoryStorage.get_region_status, hr, hm,
        mapInsert_self]
    · intro g hg
      have hmem : group_key region g ∈ md.linked_groups.map (group_key region) :=
        List.mem_map_of_mem (group_key region) hg
      simp [MemoryStorage.trigger_region_incident, MemoryStorage.get_group_status, hr, hm,
        foldl_cascade_lookup, hmem]
    · simp [MemoryStorage.trigger_region_incident, hr, hm]
  · intro hr
    simp [MemoryStorage.trigger_region_incident, hr]
  · intro hm
    rcases hr : s.region_storage region with _ | old <;>
      simp [MemoryStorage.trigger_region_incident, hr, hm]

/-- C5 witness: a region `r1` initialized (timestamp 0) with linked groups
`g1`, `g2`; triggering at time 7 with threshold 3000. -/
theorem trigger_region_incident_spec_witness :
    (((MemoryStorage.new.init_region 0 "r1" ["g1", "g2"]).trigger_region_incident 7 "r1" 3000).1
        = none) ∧
    (((MemoryStorage.new.init_region 0 "r1" ["g1", "g2"]).trigger_region_incident 7 "r1" 3000).2.get_region_status "r1"
        = some { status := RegionState.Down, updated_at := 0 }) ∧
    (((MemoryStorage.new.init_region 0 "r1" ["g1", "g2"]).trigger_region_incident 7 "r1" 3000).2.get_group_status "r1" "g1"
        = some { status := GroupState.Incident, updated_at := 7, last_metrics := [], last_error := none }) ∧
    (((MemoryStorage.new.init_region 0 "r1" ["g1", "g2"]).trigger_region_incident 7 "r1" 3000).2.incidents
        = [{ id := 0
             message := "Region r1 is DOWN"
             timestamp := 7
             error_message := some "Region relay has not sent heartbeat in time (3000ms threshold exceeded)"
             error_details := none }]) := by
  have h := (trigger_region_incident_spec (MemoryStorage.new.init_region 0 "r1" ["g1", "g2"])
    7 "r1" 3000).1 { status := RegionState.Initial, updated_at := 0 }
    { linked_groups := ["g1", "g2"] } rfl rfl
  exact ⟨h.1, h.2.1, h.2.2.1 "g1" (by decide), h.2.2.2⟩

/-- C7 counterexample: on a never-initialized key, `refresh_group` with the
status `Up` does not fail — it returns no error and inserts fresh state,
refuting the claim that every `refresh_group` on such a key errors. -/
theorem refresh_group_uninitialized_up_succeeds :
    MemoryStorage.new.get_group_status "r" "g" = none ∧
    (MemoryStorage.new.refresh_group 3 "r" "g" GroupState.Up [] none).1 = none ∧
    (MemoryStorage.new.refresh_group 3 "r" "g" GroupState.Up [] none).2.get_group_status "r" "g"
      = some { status := GroupState.Up, updated_at := 3, last_metrics := [], last_error := none } :=
  ⟨rfl, rfl, rfl⟩

/-- C7 amended: on a never-initialized `(region, group)` key, the mutations
that read the key fail and leave the store unchanged — `refresh_group` with
`new_status = Down` and `trigger_group_incident`; `refresh_group` with any
other status does not fail and inserts a fresh entry. -/
theorem uninitialized_group_mutations (s : MemoryStorage) (now : Nat) (region group : String)
    (metrics : List GroupMetrics) (err : Option String)
    (h : s.get_group_status region group = none) :
    (s.refresh_group now region group GroupState.Down metrics err
        = (some ("Could not find group storage " ++ group_key region group), s)) ∧
    (s.trigger_group_incident now region group
        = (some ("Could not find group storage " ++ group_key region group), s)) ∧
    (∀ status : GroupState, status ≠ GroupState.Down →
      (s.refresh_group now region group status metrics err).1 = none ∧
      (s.refresh_group now region group status metrics err).2.get_group_status region group
        = some { status := status, updated_at := now, last_metrics := metrics
                 last_error := err }) := by
  have h2 : s.group_storage (group_key region group) = none := h
  refine ⟨by simp [MemoryStorage.refresh_group, h2],
    by simp [MemoryStorage.trigger_group_incident, h2], ?_⟩
  intro status hst
  cases status with
  | Down => exact absurd rfl hst
  | _ =>
    exact ⟨by simp [MemoryStorage.refresh_group, h2],
      by simp [MemoryStorage.refresh_group, MemoryStorage.get_group_status, h2, mapInsert_self]⟩

/-- C7 witness: concrete runs on the empty store. -/
theorem uninitialized_group_mutations_witness :
    (MemoryStorage.new.refresh_group 4 "r" "g" GroupState.Down [] none
        = (some "Could not find group storage r.g", MemoryStorage.new)) ∧
    (MemoryStorage.new.trigger_group_incident 4 "r" "g"
        = (some "Could not find group storage r.g", MemoryStorage.new)) ∧
    (MemoryStorage.new.refresh_group 4 "r" "g" GroupState.Warn [] none).1 = none := by
  have h := uninitialized_group_mutations MemoryStorage.new 4 "r" "g" [] none rfl
  exact ⟨h.1, h.2.1, (h.2.2 GroupState.Warn (by decide)).1⟩

/-- C8 counterexample: the composite key is *not* injective over pairs —
the distinct pairs `("a", "b.c")` and `("a.b", "c")` share the key
`"a.b.c"`, so initializing the first is observed when reading the second. -/
theorem group_key_collision :
    group_key "a" "b.c" = group_key "a.b" "c" ∧
    (("a", "b.c") : String × String) ≠ ("a.b", "c") ∧
    MemoryStorage.new.get_group_status "a.b" "c" = none ∧
    ((MemoryStorage.new.init_group 5 "a" "b.c").get_group_status "a.b" "c"
      = some { status := GroupState.Initial, updated_at := 5, last_metrics := []
               last_error := none }) :=
  ⟨rfl, by decide, rfl, rfl⟩

/-- Cancelling a dot-free prefix before the first `.` of a character list. -/
theorem dotfree_append_inj :
    ∀ (l1 m1 l2 m2 : List Char),
      (( '.' ∈ l1) → False) → (( '.' ∈ l2) → False) →
      l1 ++ '.' :: m1 = l2 ++ '.' :: m2 → l1 = l2 ∧ m1 = m2 := by
  intro l1
  induction l1 with
  | nil =>
    intro m1 l2 m2 _ h2 heq
    cases l2 with
    | nil => simpa using heq
    | cons c t =>
      simp only [List.nil_append, List.cons_append, List.cons.injEq] at heq
      exact absurd (heq.1 ▸ List.mem_cons_self c t) h2
  | cons a t ih =>
    intro m1 l2 m2 h1 h2 heq
    cases l2 with
    | nil =>
      simp only [List.nil_append, List.cons_append, List.cons.injEq] at heq
      exact absurd (heq.1 ▸ List.mem_cons_self a t) h1
    | cons c t2 =>
      simp only [List.cons_append, List.cons.injEq] at heq
      have hrec := ih m1 t2 m2 (fun hm => h1 (List.mem_cons_of_mem a hm))
        (fun hm => h2 (List.mem_cons_of_mem c hm)) heq.2
      exact ⟨by rw [heq.1, hrec.1], hrec.2⟩

/-- The composite key is injective on pairs whose region name is dot-free. -/
theorem group_key_dotfree_inj {r1 g1 r2 g2 : String}
    (h1 : ( '.' ∈ r1.data) → False) (h2 : ( '.' ∈ r2.data) → False)
    (heq : group_key r1 g1 = group_key r2 g2) : r1 = r2 ∧ g1 = g2 := by
  have hd := congrArg String.data heq
  simp only [group_key, String.data_append, List.append_assoc, List.singleton_append] at hd
  have hres := dotfree_append_inj r1.data g1.data r2.data g2.data h1 h2 (by simpa using hd)
  exact ⟨String.ext hres.1, String.ext hres.2⟩

/-- C8 amended: for two distinct `(region, group)` pairs whose region names
contain no `.`, the composite keys are distinct, so initializing one pair
never observes or overwrites the stored state of the other. (With dotted
names the keys can collide, see the counterexample.) -/
theorem group_key_separation (s : MemoryStorage) (now : Nat) (r1 g1 r2 g2 : String)
    (h1 : ( '.' ∈ r1.data) → False) (h2 : ( '.' ∈ r2.data) → False)
    (hne : ((r1, g1) : String × String) ≠ (r2, g2)) :
    group_key r1 g1 ≠ group_key r2 g2 ∧
    (s.init_group now r1 g1).get_group_status r2 g2 = s.get_group_status r2 g2 := by
  have hkey : group_key r1 g1 ≠ group_key r2 g2 := by
    intro hk
    rcases group_key_dotfree_inj h1 h2 hk with ⟨hr, hg⟩
    exact hne (by rw [hr, hg])
  refine ⟨hkey, ?_⟩
  show mapInsert (group_key r1 g1) _ s.group_storage (group_key r2 g2) = _
  rw [mapInsert_ne (fun hx => hkey hx.symm)]
  rfl

/-- C8 witness: dot-free distinct pairs `("a","b")` and `("a","c")`. -/
theorem group_key_separation_witness :
    group_key "a" "b" ≠ group_key "a" "c" ∧
    (MemoryStorage.new.init_group 0 "a" "b").get_group_status "a" "c"
      = MemoryStorage.new.get_group_status "a" "c" :=
  group_key_separation MemoryStorage.new 0 "a" "b" "a" "c" (by decide) (by decide) (by decide)

/-- C2: evaluation of the Kuma update at the inputs where the code and the
spec disagree. With one group and zero unstable groups (all healthy) the
code sends `WARN 0 unstable` where the spec requires `OK 1 healthy`; with
all groups unstable (`total = unstable`) the code sends `OK <N> healthy`.
The `&ping=` suffix is appended exactly when a last ping value exists. -/
theorem kuma_update_message_bug :
    unstable_group_count [{ name := "g1", working := true, has_warnings := false
                            error_message := none, error_detail := none, metrics := [] }] = 0 ∧
    trigger_kuma_url "https://kuma.example" 1 0 none
      = "https://kuma.example?status=up&msg=WARN 0 unstable" ∧
    trigger_kuma_url "https://kuma.example" 2 2 (some "12.5")
      = "https://kuma.example?status=up&msg=OK 2 healthy&ping=12.5" :=
  ⟨rfl, rfl, rfl⟩

/-- C9: evaluation of the Spryng `build_request`. The method, headers and
JSON body are exactly as specified, but the URL string in the source ends
with a stray apostrophe, so the request does not target
`https://rest.spryngsms.com/v1/messages`. -/
theorem spryng_request_url_typo :
    ((SpryngAlerter.new "sms" "secret-token" ["+3210000000"]).build_request "alert body")
      = { method := "POST"
          url := "https://rest.spryngsms.com/v1/messages\x27"
          headers := [("Accept", "application/json"),
                      ("Authorization", "Bearer secret-token"),
                      ("Content-Type", "application/json")]
          body := { body := "alert body", encoding := "auto", originator := "watchdog"
                    recipients := ["+3210000000"], route := "business" } } ∧
    ("https://rest.spryngsms.com/v1/messages\x27" : String)
      ≠ "https://rest.spryngsms.com/v1/messages" :=
  ⟨rfl, by decide⟩
